import Mathlib

/-!
Verification development for `ckan/migration/migrate_package_activity.py`.

The script walks every dataset, lists its change events (activities),
reconstructs the dataset as of each event revision, normalizes volatile
revision timestamps, resolves the actor, attaches the snapshot payload to
the activity row unless it is already fully migrated, and commits once per
dataset when the session is dirty.  A separate interactive step wipes the
legacy `activity_detail` table.

The embedding below models the script faithfully: external collaborators
(`package_activity_list`, `package_show`, user lookup, dataset listing) are
fields of an `Env`; the mutable activity rows are an association list from
activity id to the stored payload; commits and mutations are counted
explicitly; reconstruction failure (NotFound) is an `Except` error.
-/

set_option autoImplicit false

namespace CkanMigration

/-- A resource dictionary inside a reconstructed dataset.  Only the fields
relevant to the migration are modelled: an opaque content field and the
volatile `revision_timestamp` key (`none` means the key is absent). -/
structure Resource where
  url : String
  revision_timestamp : Option String
deriving Repr, DecidableEq

/-- A tag dictionary inside a reconstructed dataset, possibly carrying a
volatile `revision_timestamp` key. -/
structure Tag where
  name : String
  revision_timestamp : Option String
deriving Repr, DecidableEq

/-- An extra key/value entry inside a reconstructed dataset, possibly
carrying a volatile `revision_timestamp` key. -/
structure Extra where
  key : String
  value : String
  revision_timestamp : Option String
deriving Repr, DecidableEq

/-- An organization dictionary inside a reconstructed dataset, possibly
carrying a volatile `revision_timestamp` key. -/
structure Organization where
  name : String
  revision_timestamp : Option String
deriving Repr, DecidableEq

/-- The dictionary returned by `package_show` for a dataset at a revision:
it always carries a `resources` key (the reconstruction service returns the
dataset including its resources, tags, extras and organization).
`organization := none` covers both an absent key and a `None` value. -/
structure DatasetView where
  title : String
  organization : Option Organization
  resources : List Resource
  tags : List Tag
  extras : List Extra
deriving Repr, DecidableEq

/-- The `package` sub-dictionary of a stored activity payload.  Unlike a
`DatasetView`, a pre-existing (legacy) payload may lack the `resources`
key entirely, so `resources` is `Option`: `none` means no such key,
`some []` means the key is present with an empty collection. -/
structure StoredPackage where
  title : String
  organization : Option Organization
  resources : Option (List Resource)
  tags : List Tag
  extras : List Extra
deriving Repr, DecidableEq

/-- The data/payload column of an activity row: possibly a `package`
sub-dictionary and possibly an `actor` entry (`none` models an absent key,
covering empty and legacy-shaped payloads). -/
structure ActivityData where
  package : Option StoredPackage
  actor : Option String
deriving Repr, DecidableEq

/-- A change-event dictionary as returned by `package_activity_list`
(compare the example at lines 96-102 of the script).  The `hidden` flag is
metadata of the listing service (an activity by the site user, e.g. a
harvest); `migrate_dataset` never inspects it. -/
structure Activity where
  id : String
  activity_type : String
  object_id : String
  revision_id : String
  timestamp : String
  user_id : String
  hidden : Bool
deriving Repr, DecidableEq

/-- A user row; only the `name` attribute is read by the script. -/
structure User where
  name : String
deriving Repr, DecidableEq

/-- The mutable store of activity rows: activity id to current payload. -/
abbrev Store := List (String × ActivityData)

/-- Read the current payload of the activity row with the given id
(`model.Session.query(model.Activity).get(id)` followed by `.data`).  A
missing row reads as an empty payload. -/
def lookupData : Store → String → ActivityData
  | [], _ => { package := none, actor := none }
  | (k, v) :: rest, id => if k = id then v else lookupData rest id

/-- Overwrite (or create) the payload of the activity row with the given
id (`activity_obj.data = data`). -/
def setData : Store → String → ActivityData → Store
  | [], id, d => [(id, d)]
  | (k, v) :: rest, id, d =>
      if k = id then (k, d) :: rest else (k, v) :: setData rest id d

/-- The external collaborators consumed by the script, as read-only
services: dataset listing (`package_list`), change-event listing
(`package_activity_list`, taking the dataset name and the
`include_hidden_activity` flag), revision-aware reconstruction
(`package_show`, taking the object id, the `revision_id` from the context
and the `include_tracking` flag; `none` is a NotFound failure) and user
lookup by id. -/
structure Env where
  package_list : List String
  package_activity_list : String → Bool → List Activity
  package_show : String → String → Bool → Option DatasetView
  user_lookup : String → Option User

/-- Log lines printed by `migrate_dataset`. -/
inductive LogLine where
  | noActivities
  | activityProgress (i n : Nat) (timestamp : String)
  | alreadyRecorded
  | saved
  | summary (n : Nat)
deriving Repr, DecidableEq

/-- The only error the per-dataset migration can raise: NotFound from
`package_show` for a stale revision marker or deleted dataset. -/
inductive MigrationError where
  | notFound (object_id revision_id : String)
deriving Repr, DecidableEq

/-- The state threaded through one `migrate_dataset` call: the activity
store, the number of payload mutations (pending session changes), the
number of `package_show` reconstruction calls, the number of commits and
the log output. -/
structure RunState where
  store : Store
  mutations : Nat
  reconstructions : Nat
  commits : Nat
  log : List LogLine
deriving Repr, DecidableEq

/-- Lines 116-120 of the script: remove `revision_timestamp` from the
organization sub-dictionary when present (the `dataset.get` with an empty
dictionary fallback guards the absent/None case) and from every
resource.  Tags and extras are not touched. -/
def normalize_dataset (dataset : DatasetView) : DatasetView :=
  let dataset :=
    match dataset.organization with
    | some org =>
        if org.revision_timestamp.isSome then
          { dataset with organization := some { org with revision_timestamp := none } }
        else dataset
    | none => dataset
  { dataset with
      resources := dataset.resources.map fun res =>
        if res.revision_timestamp.isSome then
          { res with revision_timestamp := none }
        else res }

/-- Lines 122-123 of the script: `actor.name` when the user row exists,
otherwise the raw user id from the activity. -/
def resolve_actor (env : Env) (user_id : String) : String :=
  match env.user_lookup user_id with
  | some u => u.name
  | none => user_id

/-- Line 133 of the script, the Attachment Guard: the membership test of
the resources key in `activity_obj.data.get` of the package key with an
empty dictionary fallback.  This is a key-presence test on the stored
payload. -/
def is_fully_migrated (d : ActivityData) : Bool :=
  match d.package with
  | some p => p.resources.isSome
  | none => false

/-- Embed a reconstructed dataset view into the stored payload shape; the
`resources` key is always present on this path. -/
def toStored (v : DatasetView) : StoredPackage :=
  { title := v.title, organization := v.organization,
    resources := some v.resources, tags := v.tags, extras := v.extras }

/-- The payload the script attaches for an activity whose reconstruction
returned `v` (lines 126-129): the normalized dataset under `package` and
the resolved actor. -/
def migratedData (env : Env) (a : Activity) (v : DatasetView) : ActivityData :=
  { package := some (toStored (normalize_dataset v)),
    actor := some (resolve_actor env a.user_id) }

/-- One iteration of the activity loop (lines 95-137): print progress,
reconstruct the dataset as of the activity revision with
`include_tracking := false`, normalize, resolve the actor, then either
skip (payload already fully migrated) or set the payload. -/
def processActivity (env : Env) (st : RunState) (n i : Nat) (a : Activity) :
    Except MigrationError RunState :=
  let st := { st with
    log := st.log ++ [LogLine.activityProgress (i + 1) n a.timestamp] }
  match env.package_show a.object_id a.revision_id false with
  | none => .error (.notFound a.object_id a.revision_id)
  | some dataset =>
      let st := { st with reconstructions := st.reconstructions + 1 }
      let dataset := normalize_dataset dataset
      let actor_name := resolve_actor env a.user_id
      let data : ActivityData :=
        { package := some (toStored dataset), actor := some actor_name }
      if is_fully_migrated (lookupData st.store a.id) then
        .ok { st with log := st.log ++ [LogLine.alreadyRecorded] }
      else
        .ok { st with store := setData st.store a.id data,
                      mutations := st.mutations + 1 }

/-- The activity loop over the remaining stream, carrying the index. -/
def processAll (env : Env) (n : Nat) :
    List Activity → Nat → RunState → Except MigrationError RunState
  | [], _, st => .ok st
  | a :: rest, i, st =>
      match processActivity env st n i a with
      | .error e => .error e
      | .ok st => processAll env n rest (i + 1) st

/-- `migrate_dataset` (lines 62-141): list the activities with
`include_hidden_activity := true`, print the no-activities notice when the
stream is empty, process every activity, commit exactly once when the
session is dirty (some payload was set in this call), and print the final
summary line. -/
def migrate_dataset (env : Env) (store : Store) (dataset_name : String) :
    Except MigrationError RunState :=
  let package_activity_stream := env.package_activity_list dataset_name true
  let num_activities := package_activity_stream.length
  let init : RunState :=
    { store := store, mutations := 0, reconstructions := 0, commits := 0,
      log := if num_activities = 0 then [LogLine.noActivities] else [] }
  match processAll env num_activities package_activity_stream 0 init with
  | .error e => .error e
  | .ok st =>
      let st :=
        if st.mutations > 0 then
          { st with commits := st.commits + 1, log := st.log ++ [LogLine.saved] }
        else st
      .ok { st with log := st.log ++ [LogLine.summary num_activities] }

/-- The aggregate outcome of a full run over several datasets. -/
structure FullState where
  store : Store
  mutations : Nat
  commits : Nat
deriving Repr, DecidableEq

instance : Inhabited FullState := ⟨⟨[], 0, 0⟩⟩

/-- The loop of `migrate_all_datasets` over a list of dataset names,
accumulating the store, mutation count and commit count. -/
def migrate_datasets (env : Env) :
    List String → Store → Nat → Nat → Except MigrationError FullState
  | [], store, m, c => .ok { store := store, mutations := m, commits := c }
  | d :: rest, store, m, c =>
      match migrate_dataset env store d with
      | .error e => .error e
      | .ok st =>
          migrate_datasets env rest st.store (m + st.mutations) (c + st.commits)

/-- `migrate_all_datasets` (lines 53-59): run `migrate_dataset` over every
dataset returned by `package_list`. -/
def migrate_all_datasets (env : Env) (store : Store) :
    Except MigrationError FullState :=
  migrate_datasets env env.package_list store 0 0

/-- Whether a per-dataset or full migration run completed without error. -/
def runOk {α : Type} (r : Except MigrationError α) : Bool :=
  match r with
  | .ok _ => true
  | .error _ => false

/-- How `wipe_activity_detail` terminates. -/
inductive WipeOutcome where
  /-- The table was already empty: report and return. -/
  | alreadyClean
  /-- The confirmation was declined: `sys.exit(0)`, a clean zero-status
  process exit, deleting nothing. -/
  | exitZero
  /-- The confirmation was affirmative: all rows deleted and committed. -/
  | deleted
deriving Repr, DecidableEq

/-- Observable result of `wipe_activity_detail`: the outcome, the number
of `activity_detail` rows remaining, the number of commits issued and
whether the interactive prompt was shown. -/
structure WipeResult where
  outcome : WipeOutcome
  rowsAfter : Nat
  commits : Nat
  prompted : Bool
deriving Repr, DecidableEq

/-- `wipe_activity_detail` (lines 144-165): if the row count is zero,
report already-clean and return; otherwise prompt, and unless the
lowercased response starts with the letter y (the Python test compares
`response.lower()[:1]` against that letter, modelled here on the character
list of the response), exit the process with status zero deleting
nothing; on an
affirmative response delete every row and commit once. -/
def wipe_activity_detail (num_activity_detail_rows : Nat) (response : String) :
    WipeResult :=
  if num_activity_detail_rows = 0 then
    { outcome := .alreadyClean, rowsAfter := num_activity_detail_rows,
      commits := 0, prompted := false }
  else if (response.data.map Char.toLower).take 1 ≠ [Char.ofNat 121] then
    { outcome := .exitZero, rowsAfter := num_activity_detail_rows,
      commits := 0, prompted := true }
  else
    { outcome := .deleted, rowsAfter := 0, commits := 1, prompted := true }

/-- Example dataset view used in concrete witnesses: it carries volatile
revision timestamps on the organization, on a resource, on a tag and on an
extra. -/
def exView : DatasetView :=
  { title := "t",
    organization := some { name := "org", revision_timestamp := some "2018-01" },
    resources := [{ url := "res1", revision_timestamp := some "2018-02" }],
    tags := [{ name := "science", revision_timestamp := some "2018-03" }],
    extras := [{ key := "k", value := "v", revision_timestamp := some "2018-04" }] }

/-- Example dataset view without an owning organization. -/
def exViewNoOrg : DatasetView :=
  { title := "t2", organization := none, resources := [], tags := [], extras := [] }

/-- Helper building a concrete change event on dataset object `p1`. -/
def mkAct (id rev uid : String) (hidden : Bool) : Activity :=
  { id := id, activity_type := "changed package", object_id := "p1",
    revision_id := rev, timestamp := "2018-04-20", user_id := uid,
    hidden := hidden }

/-- Concrete environment: one dataset `d` with a hidden event and a
visible event, reconstructable at both revisions; user `u1` exists, user
`U-missing` does not. -/
def exEnv : Env :=
  { package_list := ["d"],
    package_activity_list := fun name _inc =>
      if name = "d" then
        [mkAct "a1" "r1" "u1" true, mkAct "a2" "r2" "U-missing" false]
      else [],
    package_show := fun pid rid _tr =>
      if pid = "p1" ∧ (rid = "r1" ∨ rid = "r2") then some exView else none,
    user_lookup := fun uid => if uid = "u1" then some { name := "alice" } else none }

/-- A payload that is already fully migrated: its package carries a
non-empty resources collection. -/
def exMigratedData : ActivityData :=
  { package := some
      { title := "t", organization := none,
        resources := some [{ url := "res1", revision_timestamp := none }],
        tags := [], extras := [] },
    actor := some "alice" }

/-- A payload whose package has a `resources` key holding an empty
collection. -/
def exDataEmptyRes : ActivityData :=
  { package := some
      { title := "t", organization := none, resources := some [],
        tags := [], extras := [] },
    actor := none }

/-- Concrete environment with a single event on dataset `d`. -/
def exEnvC1 : Env :=
  { package_list := ["d"],
    package_activity_list := fun name _inc =>
      if name = "d" then [mkAct "a1" "r1" "u1" false] else [],
    package_show := fun pid rid _tr =>
      if pid = "p1" ∧ rid = "r1" then some exView else none,
    user_lookup := fun _ => none }

/-- Concrete environment with five events on dataset `d`, all
reconstructable at revision `r1`. -/
def exEnv4 : Env :=
  { package_list := ["d"],
    package_activity_list := fun name _inc =>
      if name = "d" then
        [mkAct "a1" "r1" "u1" false, mkAct "a2" "r1" "u1" false,
         mkAct "a3" "r1" "u1" false, mkAct "a4" "r1" "u1" false,
         mkAct "a5" "r1" "u1" false]
      else [],
    package_show := fun pid rid _tr =>
      if pid = "p1" ∧ rid = "r1" then some exView else none,
    user_lookup := fun _ => none }

/-- Initial store for the commit-batching scenario: two of the five
events are already fully migrated. -/
def exStore4 : Store := [("a2", exMigratedData), ("a4", exMigratedData)]

/-- Concrete environment with no change events at all. -/
def exEnv7 : Env :=
  { package_list := ["empty"],
    package_activity_list := fun _ _ => [],
    package_show := fun _ _ _ => none,
    user_lookup := fun _ => none }

/-- Concrete environment whose reconstruction service always fails with
NotFound. -/
def exEnv9 : Env :=
  { package_list := ["d"],
    package_activity_list := fun name _inc =>
      if name = "d" then [mkAct "a1" "rgone" "u1" false] else [],
    package_show := fun _ _ _ => none,
    user_lookup := fun _ => none }

/-- Concrete environment reconstructing a dataset without an owning
organization. -/
def exEnv10 : Env :=
  { package_list := ["d"],
    package_activity_list := fun name _inc =>
      if name = "d" then [mkAct "a1" "r1" "u1" false] else [],
    package_show := fun pid rid _tr =>
      if pid = "p1" ∧ rid = "r1" then some exViewNoOrg else none,
    user_lookup := fun _ => none }

/-- The empty run state every `migrate_dataset` call starts from when the
store is empty. -/
def exInit : RunState :=
  { store := [], mutations := 0, reconstructions := 0, commits := 0, log := [] }

end CkanMigration

namespace CkanMigration

theorem lookupData_setData_self (s : Store) (id : String) (d : ActivityData) :
    lookupData (setData s id d) id = d := by
  induction s with
  | nil => simp [setData, lookupData]
  | cons p rest ih =>
      obtain ⟨k, v⟩ := p
      by_cases hk : k = id
      · simp [setData, lookupData, hk]
      · simp [setData, lookupData, hk, ih]

theorem lookupData_setData_ne (s : Store) (id id' : String) (d : ActivityData)
    (h : id' ≠ id) : lookupData (setData s id d) id' = lookupData s id' := by
  induction s with
  | nil => simp [setData, lookupData, Ne.symm h]
  | cons p rest ih =>
      obtain ⟨k, v⟩ := p
      by_cases hk : k = id
      · subst hk
        simp [setData, lookupData, Ne.symm h]
      · by_cases hk' : k = id'
        · subst hk'
          simp [setData, lookupData, hk, h]
        · simp [setData, lookupData, hk, hk', ih]

theorem is_fully_migrated_migratedData (env : Env) (a : Activity)
    (v : DatasetView) : is_fully_migrated (migratedData env a v) = true := rfl

/-- Characterization of a successful single-activity step: reconstruction
succeeded, commits are untouched, reconstructions grow by one, and either
the guard skipped (store and mutation count unchanged) or the payload was
set to the migrated data. -/
theorem processActivity_ok (env : Env) (st : RunState) (n i : Nat)
    (a : Activity) (st' : RunState)
    (h : processActivity env st n i a = .ok st') :
    ∃ v, env.package_show a.object_id a.revision_id false = some v ∧
      st'.commits = st.commits ∧
      st'.reconstructions = st.reconstructions + 1 ∧
      ((is_fully_migrated (lookupData st.store a.id) = true ∧
          st'.store = st.store ∧ st'.mutations = st.mutations) ∨
       (is_fully_migrated (lookupData st.store a.id) = false ∧
          st'.store = setData st.store a.id (migratedData env a v) ∧
          st'.mutations = st.mutations + 1)) := by
  unfold processActivity at h
  cases hps : env.package_show a.object_id a.revision_id false with
  | none => rw [hps] at h; exact absurd h (by simp)
  | some v =>
      rw [hps] at h
      refine ⟨v, rfl, ?_⟩
      by_cases hg : is_fully_migrated (lookupData st.store a.id) = true
      · simp only [hg, if_true] at h
        cases h
        exact ⟨rfl, rfl, Or.inl ⟨hg, rfl, rfl⟩⟩
      · rw [Bool.not_eq_true] at hg
        simp only [hg, if_false, Bool.false_eq_true] at h
        cases h
        exact ⟨rfl, rfl, Or.inr ⟨hg, rfl, rfl⟩⟩

/-- Computation rule for the skip path: when reconstruction succeeds and
the stored payload is already fully migrated, the step only logs. -/
theorem processActivity_skip (env : Env) (st : RunState) (n i : Nat)
    (a : Activity) (v : DatasetView)
    (hps : env.package_show a.object_id a.revision_id false = some v)
    (hg : is_fully_migrated (lookupData st.store a.id) = true) :
    processActivity env st n i a =
      .ok { st with
              reconstructions := st.reconstructions + 1,
              log := st.log ++ [LogLine.activityProgress (i + 1) n a.timestamp,
                                LogLine.alreadyRecorded] } := by
  unfold processActivity
  rw [hps]
  simp [hg]

/-- Computation rule for the write path: when reconstruction succeeds and
the stored payload is not fully migrated, the step sets the payload. -/
theorem processActivity_write (env : Env) (st : RunState) (n i : Nat)
    (a : Activity) (v : DatasetView)
    (hps : env.package_show a.object_id a.revision_id false = some v)
    (hg : is_fully_migrated (lookupData st.store a.id) = false) :
    processActivity env st n i a =
      .ok { st with
              store := setData st.store a.id (migratedData env a v),
              mutations := st.mutations + 1,
              reconstructions := st.reconstructions + 1,
              log := st.log ++ [LogLine.activityProgress (i + 1) n a.timestamp] } := by
  unfold processActivity
  rw [hps]
  simp [hg, migratedData]

/-- A fully migrated payload stays fully migrated across a step: the only
write installs `migratedData`, which is fully migrated. -/
theorem processActivity_preserves (env : Env) (st : RunState) (n i : Nat)
    (a : Activity) (st' : RunState)
    (h : processActivity env st n i a = .ok st') (id : String)
    (hm : is_fully_migrated (lookupData st.store id) = true) :
    is_fully_migrated (lookupData st'.store id) = true := by
  obtain ⟨v, _, _, _, hcase⟩ := processActivity_ok env st n i a st' h
  rcases hcase with ⟨_, hstore, _⟩ | ⟨_, hstore, _⟩
  · rw [hstore]; exact hm
  · rw [hstore]
    by_cases hid : id = a.id
    · subst hid
      rw [lookupData_setData_self]
      exact is_fully_migrated_migratedData env a v
    · rw [lookupData_setData_ne _ _ _ _ hid]
      exact hm

end CkanMigration

namespace CkanMigration

theorem processAll_commits (env : Env) (n : Nat) (l : List Activity) :
    ∀ (i : Nat) (st st' : RunState), processAll env n l i st = .ok st' →
      st'.commits = st.commits := by
  induction l with
  | nil =>
      intro i st st' h
      simp only [processAll, Except.ok.injEq] at h
      subst h; rfl
  | cons a rest ih =>
      intro i st st' h
      unfold processAll at h
      cases hpa : processActivity env st n i a with
      | error e => rw [hpa] at h; exact absurd h (by simp)
      | ok st1 =>
          rw [hpa] at h
          obtain ⟨v, _, hc, _, _⟩ := processActivity_ok env st n i a st1 hpa
          rw [ih (i + 1) st1 st' h, hc]

theorem processAll_reconstructions (env : Env) (n : Nat) (l : List Activity) :
    ∀ (i : Nat) (st st' : RunState), processAll env n l i st = .ok st' →
      st'.reconstructions = st.reconstructions + l.length := by
  induction l with
  | nil =>
      intro i st st' h
      simp only [processAll, Except.ok.injEq] at h
      subst h; rfl
  | cons a rest ih =>
      intro i st st' h
      unfold processAll at h
      cases hpa : processActivity env st n i a with
      | error e => rw [hpa] at h; exact absurd h (by simp)
      | ok st1 =>
          rw [hpa] at h
          obtain ⟨v, _, _, hr, _⟩ := processActivity_ok env st n i a st1 hpa
          rw [ih (i + 1) st1 st' h, hr, List.length_cons]
          omega

theorem processAll_preserves (env : Env) (n : Nat) (l : List Activity) :
    ∀ (i : Nat) (st st' : RunState), processAll env n l i st = .ok st' →
      ∀ id : String, is_fully_migrated (lookupData st.store id) = true →
        is_fully_migrated (lookupData st'.store id) = true := by
  induction l with
  | nil =>
      intro i st st' h id hm
      simp only [processAll, Except.ok.injEq] at h
      subst h; exact hm
  | cons a rest ih =>
      intro i st st' h id hm
      unfold processAll at h
      cases hpa : processActivity env st n i a with
      | error e => rw [hpa] at h; exact absurd h (by simp)
      | ok st1 =>
          rw [hpa] at h
          exact ih (i + 1) st1 st' h id
            (processActivity_preserves env st n i a st1 hpa id hm)

theorem processAll_ps_some (env : Env) (n : Nat) (l : List Activity) :
    ∀ (i : Nat) (st st' : RunState), processAll env n l i st = .ok st' →
      ∀ a ∈ l, (env.package_show a.object_id a.revision_id false).isSome = true := by
  induction l with
  | nil => intro i st st' _ a ha; exact absurd ha (List.not_mem_nil a)
  | cons b rest ih =>
      intro i st st' h a ha
      unfold processAll at h
      cases hpa : processActivity env st n i b with
      | error e => rw [hpa] at h; exact absurd h (by simp)
      | ok st1 =>
          rw [hpa] at h
          rcases List.mem_cons.mp ha with hab | har
          · subst hab
            obtain ⟨v, hv, _⟩ := processActivity_ok env st n i a st1 hpa
            rw [hv]; rfl
          · exact ih (i + 1) st1 st' h a har

theorem processAll_migrated_all (env : Env) (n : Nat) (l : List Activity) :
    ∀ (i : Nat) (st st' : RunState), processAll env n l i st = .ok st' →
      ∀ a ∈ l, is_fully_migrated (lookupData st'.store a.id) = true := by
  induction l with
  | nil => intro i st st' _ a ha; exact absurd ha (List.not_mem_nil a)
  | cons b rest ih =>
      intro i st st' h a ha
      unfold processAll at h
      cases hpa : processActivity env st n i b with
      | error e => rw [hpa] at h; exact absurd h (by simp)
      | ok st1 =>
          rw [hpa] at h
          rcases List.mem_cons.mp ha with hab | har
          · subst hab
            have hm1 : is_fully_migrated (lookupData st1.store a.id) = true := by
              obtain ⟨v, _, _, _, hcase⟩ := processActivity_ok env st n i a st1 hpa
              rcases hcase with ⟨hg, hstore, _⟩ | ⟨_, hstore, _⟩
              · rw [hstore]; exact hg
              · rw [hstore, lookupData_setData_self]
                exact is_fully_migrated_migratedData env a v
            exact processAll_preserves env n rest (i + 1) st1 st' h a.id hm1
          · exact ih (i + 1) st1 st' h a har

theorem processAll_untouched (env : Env) (n : Nat) (l : List Activity) :
    ∀ (i : Nat) (st st' : RunState), processAll env n l i st = .ok st' →
      ∀ id : String, id ∉ l.map Activity.id →
        lookupData st'.store id = lookupData st.store id := by
  induction l with
  | nil =>
      intro i st st' h id _
      simp only [processAll, Except.ok.injEq] at h
      subst h; rfl
  | cons a rest ih =>
      intro i st st' h id hid
      unfold processAll at h
      cases hpa : processActivity env st n i a with
      | error e => rw [hpa] at h; exact absurd h (by simp)
      | ok st1 =>
          rw [hpa] at h
          have hid1 : id ∉ rest.map Activity.id := by
            intro hm; exact hid (by simp only [List.map_cons, List.mem_cons]; right; exact hm)
          have hida : id ≠ a.id := by
            intro he; exact hid (by simp only [List.map_cons, List.mem_cons]; left; exact he)
          rw [ih (i + 1) st1 st' h id hid1]
          obtain ⟨v, _, _, _, hcase⟩ := processActivity_ok env st n i a st1 hpa
          rcases hcase with ⟨_, hstore, _⟩ | ⟨_, hstore, _⟩
          · rw [hstore]
          · rw [hstore, lookupData_setData_ne _ _ _ _ hida]

theorem processAll_noop (env : Env) (n : Nat) (l : List Activity) :
    ∀ (i : Nat) (st : RunState),
      (∀ a ∈ l, is_fully_migrated (lookupData st.store a.id) = true ∧
        (env.package_show a.object_id a.revision_id false).isSome = true) →
      ∃ st', processAll env n l i st = .ok st' ∧ st'.store = st.store ∧
        st'.mutations = st.mutations ∧ st'.commits = st.commits := by
  induction l with
  | nil => intro i st _; exact ⟨st, rfl, rfl, rfl, rfl⟩
  | cons a rest ih =>
      intro i st hall
      obtain ⟨hm, hsome⟩ := hall a (List.mem_cons_self a rest)
      obtain ⟨v, hv⟩ := Option.isSome_iff_exists.mp hsome
      have hstep := processActivity_skip env st n i a v hv hm
      obtain ⟨st', hrest, hstore, hmut, hcom⟩ :=
        ih (i + 1)
          { st with
              reconstructions := st.reconstructions + 1,
              log := st.log ++ [LogLine.activityProgress (i + 1) n a.timestamp,
                                LogLine.alreadyRecorded] }
          (fun b hb => hall b (List.mem_cons_of_mem a hb))
      refine ⟨st', ?_, hstore, hmut, hcom⟩
      unfold processAll
      rw [hstep]
      exact hrest

end CkanMigration

namespace CkanMigration

theorem countP_ext {α : Type} (l : List α) (p q : α → Bool)
    (h : ∀ a ∈ l, p a = q a) : l.countP p = l.countP q := by
  induction l with
  | nil => rfl
  | cons a rest ih =>
      rw [List.countP_cons, List.countP_cons, h a (List.mem_cons_self a rest),
        ih (fun b hb => h b (List.mem_cons_of_mem a hb))]

/-- The number of payload mutations performed by the activity loop equals
the number of events whose stored payload was not already fully migrated
when the loop started (event ids must be distinct, as they are in the
database). -/
theorem processAll_mutations (env : Env) (n : Nat) (l : List Activity) :
    ∀ (i : Nat) (st st' : RunState), processAll env n l i st = .ok st' →
      (l.map Activity.id).Nodup →
      st'.mutations = st.mutations +
        l.countP (fun a => !is_fully_migrated (lookupData st.store a.id)) := by
  induction l with
  | nil =>
      intro i st st' h _
      simp only [processAll, Except.ok.injEq] at h
      subst h; simp [List.countP_nil]
  | cons a rest ih =>
      intro i st st' h hnd
      unfold processAll at h
      cases hpa : processActivity env st n i a with
      | error e => rw [hpa] at h; exact absurd h (by simp)
      | ok st1 =>
          rw [hpa] at h
          have hnd1 : (rest.map Activity.id).Nodup :=
            (List.nodup_cons.mp (by simpa using hnd)).2
          have hnotin : a.id ∉ rest.map Activity.id :=
            (List.nodup_cons.mp (by simpa using hnd)).1
          have hih := ih (i + 1) st1 st' h hnd1
          obtain ⟨v, _, _, _, hcase⟩ := processActivity_ok env st n i a st1 hpa
          have hsame : ∀ b ∈ rest,
              (!is_fully_migrated (lookupData st1.store b.id)) =
              (!is_fully_migrated (lookupData st.store b.id)) := by
            intro b hb
            rcases hcase with ⟨_, hstore, _⟩ | ⟨_, hstore, _⟩
            · rw [hstore]
            · have hbne : b.id ≠ a.id := by
                intro he
                exact hnotin (he ▸ List.mem_map_of_mem Activity.id hb)
              rw [hstore, lookupData_setData_ne _ _ _ _ hbne]
          rw [countP_ext rest _ _ hsame] at hih
          rcases hcase with ⟨hg, _, hmut⟩ | ⟨hg, _, hmut⟩
          · rw [hih, hmut, List.countP_cons]
            simp [hg]
          · rw [hih, hmut, List.countP_cons]
            simp [hg]
            omega

/-- After a successful activity loop every processed event is fully
migrated in the final store, and an event that was not fully migrated at
loop entry carries exactly the payload built from its own revision marker
reconstruction (event ids distinct). -/
theorem processAll_spec (env : Env) (n : Nat) (l : List Activity) :
    ∀ (i : Nat) (st st' : RunState), processAll env n l i st = .ok st' →
      (l.map Activity.id).Nodup →
      ∀ a ∈ l,
        is_fully_migrated (lookupData st'.store a.id) = true ∧
        (∀ v, env.package_show a.object_id a.revision_id false = some v →
          is_fully_migrated (lookupData st.store a.id) = false →
          lookupData st'.store a.id = migratedData env a v) := by
  induction l with
  | nil => intro i st st' _ _ a ha; exact absurd ha (List.not_mem_nil a)
  | cons b rest ih =>
      intro i st st' h hnd a ha
      unfold processAll at h
      cases hpa : processActivity env st n i b with
      | error e => rw [hpa] at h; exact absurd h (by simp)
      | ok st1 =>
          rw [hpa] at h
          have hnd1 : (rest.map Activity.id).Nodup :=
            (List.nodup_cons.mp (by simpa using hnd)).2
          have hnotin : b.id ∉ rest.map Activity.id :=
            (List.nodup_cons.mp (by simpa using hnd)).1
          obtain ⟨v0, hv0, _, _, hcase⟩ := processActivity_ok env st n i b st1 hpa
          rcases List.mem_cons.mp ha with hab | har
          · subst hab
            constructor
            · exact processAll_migrated_all env n (a :: rest) i st st'
                (by unfold processAll; rw [hpa]; exact h) a (List.mem_cons_self a rest)
            · intro v hv hg0
              have hvv : v0 = v := by
                rw [hv0] at hv; exact (Option.some.injEq v0 v).mp hv
              subst hvv
              rcases hcase with ⟨hg, _, _⟩ | ⟨_, hstore, _⟩
              · rw [hg0] at hg; exact absurd hg (by simp)
              · have huntouched := processAll_untouched env n rest (i + 1) st1 st' h
                  a.id hnotin
                rw [huntouched, hstore, lookupData_setData_self]
          · have hlook : lookupData st1.store a.id = lookupData st.store a.id := by
              rcases hcase with ⟨_, hstore, _⟩ | ⟨_, hstore, _⟩
              · rw [hstore]
              · have hane : a.id ≠ b.id := by
                  intro he
                  exact hnotin (he ▸ List.mem_map_of_mem Activity.id har)
                rw [hstore, lookupData_setData_ne _ _ _ _ hane]
            obtain ⟨h1, h2⟩ := ih (i + 1) st1 st' h hnd1 a har
            exact ⟨h1, fun v hv hg0 => h2 v hv (hlook ▸ hg0)⟩

end CkanMigration

namespace CkanMigration

/-- Characterization of a successful `migrate_dataset` call in terms of
the underlying activity loop: the commit happens exactly when some payload
mutation happened in this call. -/
theorem migrate_dataset_ok (env : Env) (store : Store) (name : String)
    (st : RunState) (h : migrate_dataset env store name = .ok st) :
    ∃ st0,
      processAll env (env.package_activity_list name true).length
        (env.package_activity_list name true) 0
        { store := store, mutations := 0, reconstructions := 0, commits := 0,
          log := if (env.package_activity_list name true).length = 0
                 then [LogLine.noActivities] else [] } = .ok st0 ∧
      st.store = st0.store ∧ st.mutations = st0.mutations ∧
      st.reconstructions = st0.reconstructions ∧
      st.commits = (if st0.mutations > 0 then 1 else 0) := by
  simp only [migrate_dataset] at h
  split at h
  · exact absurd h (by simp)
  · next st0 heq =>
      refine ⟨st0, heq, ?_⟩
      have hc0 : st0.commits = 0 := processAll_commits env _ _ 0 _ st0 heq
      by_cases hm : st0.mutations > 0
      · rw [if_pos hm] at h
        injection h with h
        subst h
        simp [hm, hc0]
      · rw [if_neg hm] at h
        injection h with h
        subst h
        simp [hm, hc0]

/-- A fully migrated payload stays fully migrated across a whole
per-dataset migration call. -/
theorem migrate_dataset_preserves (env : Env) (store : Store) (name : String)
    (st : RunState) (h : migrate_dataset env store name = .ok st)
    (id : String) (hm : is_fully_migrated (lookupData store id) = true) :
    is_fully_migrated (lookupData st.store id) = true := by
  obtain ⟨st0, hpa, hstore, _⟩ := migrate_dataset_ok env store name st h
  rw [hstore]
  exact processAll_preserves env _ _ 0 _ st0 hpa id hm

/-- After a successful per-dataset migration, every listed event is fully
migrated and its reconstruction succeeded. -/
theorem migrate_dataset_post (env : Env) (store : Store) (name : String)
    (st : RunState) (h : migrate_dataset env store name = .ok st) :
    ∀ a ∈ env.package_activity_list name true,
      is_fully_migrated (lookupData st.store a.id) = true ∧
      (env.package_show a.object_id a.revision_id false).isSome = true := by
  obtain ⟨st0, hpa, hstore, _⟩ := migrate_dataset_ok env store name st h
  intro a ha
  refine ⟨?_, processAll_ps_some env _ _ 0 _ st0 hpa a ha⟩
  rw [hstore]
  exact processAll_migrated_all env _ _ 0 _ st0 hpa a ha

/-- A per-dataset migration over a store in which every listed event is
already fully migrated (and still reconstructable) is a no-op: it
succeeds, leaves the store unchanged, mutates nothing and commits
nothing. -/
theorem migrate_dataset_noop (env : Env) (store : Store) (name : String)
    (hall : ∀ a ∈ env.package_activity_list name true,
        is_fully_migrated (lookupData store a.id) = true ∧
        (env.package_show a.object_id a.revision_id false).isSome = true) :
    ∃ st, migrate_dataset env store name = .ok st ∧ st.store = store ∧
      st.mutations = 0 ∧ st.commits = 0 := by
  obtain ⟨st0, hrun, hstore, hmut, hcom⟩ :=
    processAll_noop env (env.package_activity_list name true).length
      (env.package_activity_list name true) 0
      { store := store, mutations := 0, reconstructions := 0, commits := 0,
        log := if (env.package_activity_list name true).length = 0
               then [LogLine.noActivities] else [] }
      hall
  have hs0 : st0.store = store := by simpa using hstore
  have hm0 : st0.mutations = 0 := by simpa using hmut
  have hc0 : st0.commits = 0 := by simpa using hcom
  refine ⟨{ st0 with
              log := st0.log ++
                [LogLine.summary (env.package_activity_list name true).length] },
    ?_, hs0, hm0, hc0⟩
  have hz : ¬ st0.mutations > 0 := by omega
  simp only [migrate_dataset, hrun, if_neg hz]

/-- A fully migrated payload stays fully migrated across a run over any
list of datasets. -/
theorem migrate_datasets_preserves (env : Env) (ds : List String) :
    ∀ (store : Store) (m c : Nat) (fs : FullState),
      migrate_datasets env ds store m c = .ok fs →
      ∀ id : String, is_fully_migrated (lookupData store id) = true →
        is_fully_migrated (lookupData fs.store id) = true := by
  induction ds with
  | nil =>
      intro store m c fs h id hm
      simp only [migrate_datasets, Except.ok.injEq] at h
      subst h; exact hm
  | cons d rest ih =>
      intro store m c fs h id hm
      unfold migrate_datasets at h
      cases hd : migrate_dataset env store d with
      | error e => rw [hd] at h; exact absurd h (by simp)
      | ok st =>
          rw [hd] at h
          exact ih st.store (m + st.mutations) (c + st.commits) fs h id
            (migrate_dataset_preserves env store d st hd id hm)

/-- After a successful run over a list of datasets, every event of every
processed dataset is fully migrated in the final store and its
reconstruction succeeded. -/
theorem migrate_datasets_post (env : Env) (ds : List String) :
    ∀ (store : Store) (m c : Nat) (fs : FullState),
      migrate_datasets env ds store m c = .ok fs →
      ∀ d ∈ ds, ∀ a ∈ env.package_activity_list d true,
        is_fully_migrated (lookupData fs.store a.id) = true ∧
        (env.package_show a.object_id a.revision_id false).isSome = true := by
  induction ds with
  | nil => intro store m c fs _ d hd; exact absurd hd (List.not_mem_nil d)
  | cons d0 rest ih =>
      intro store m c fs h d hd a ha
      unfold migrate_datasets at h
      cases hd0 : migrate_dataset env store d0 with
      | error e => rw [hd0] at h; exact absurd h (by simp)
      | ok st =>
          rw [hd0] at h
          rcases List.mem_cons.mp hd with hdd | hdr
          · subst hdd
            obtain ⟨hm, hsome⟩ := migrate_dataset_post env store d st hd0 a ha
            exact ⟨migrate_datasets_preserves env rest st.store
              (m + st.mutations) (c + st.commits) fs h a.id hm, hsome⟩
          · exact ih st.store (m + st.mutations) (c + st.commits) fs h d hdr a ha

/-- A run over datasets whose events are all already fully migrated (and
reconstructable) succeeds, changes nothing and accumulates no mutations
and no commits. -/
theorem migrate_datasets_noop (env : Env) (ds : List String) :
    ∀ (store : Store) (m c : Nat),
      (∀ d ∈ ds, ∀ a ∈ env.package_activity_list d true,
        is_fully_migrated (lookupData store a.id) = true ∧
        (env.package_show a.object_id a.revision_id false).isSome = true) →
      migrate_datasets env ds store m c =
        .ok { store := store, mutations := m, commits := c } := by
  induction ds with
  | nil => intro store m c _; rfl
  | cons d rest ih =>
      intro store m c hall
      obtain ⟨st, hd, hstore, hmut, hcom⟩ :=
        migrate_dataset_noop env store d
          (hall d (List.mem_cons_self d rest))
      unfold migrate_datasets
      simp only [hd]
      rw [hstore, hmut, hcom]
      have := ih store (m + 0) (c + 0)
        (fun d' hd' => hall d' (List.mem_cons_of_mem d hd'))
      simpa using this

end CkanMigration

namespace CkanMigration

theorem countP_not_add_countP {α : Type} (l : List α) (p : α → Bool) :
    l.countP (fun a => !p a) + l.countP p = l.length := by
  induction l with
  | nil => rfl
  | cons a rest ih =>
      rw [List.countP_cons, List.countP_cons, List.length_cons]
      cases h : p a <;> simp [h] <;> omega

/-- C2: running the full migration twice in succession is idempotent: if a
full run over every dataset succeeds, a second full run over the resulting
store succeeds, leaves every persisted event payload exactly as after the
first run, sets no payload and triggers no commit. -/
theorem C2_idempotent (env : Env) (store : Store) (fs1 : FullState)
    (h1 : migrate_all_datasets env store = .ok fs1) :
    migrate_all_datasets env fs1.store =
      .ok { store := fs1.store, mutations := 0, commits := 0 } :=
  migrate_datasets_noop env env.package_list fs1.store 0 0
    (migrate_datasets_post env env.package_list store 0 0 fs1 h1)

theorem C2_idempotent_witness :
    migrate_all_datasets exEnv
        ((migrate_all_datasets exEnv []).toOption.getD default).store =
      .ok { store := ((migrate_all_datasets exEnv []).toOption.getD default).store,
            mutations := 0, commits := 0 } := by
  obtain ⟨fs1, hfs1⟩ : ∃ fs1, migrate_all_datasets exEnv [] = .ok fs1 := ⟨_, rfl⟩
  have h := C2_idempotent exEnv [] fs1 hfs1
  rw [hfs1]
  exact h

/-- C4: over a dataset whose event ids are distinct, one per-dataset
migration call performs exactly one payload mutation per event that was
not already fully migrated, and it issues exactly one commit when at least
one mutation happened and no commit otherwise (hence at most one commit,
never one commit per event). -/
theorem C4_commit_batching (env : Env) (store : Store) (name : String)
    (st : RunState)
    (h : migrate_dataset env store name = .ok st)
    (hnd : ((env.package_activity_list name true).map Activity.id).Nodup) :
    st.mutations = (env.package_activity_list name true).length -
      (env.package_activity_list name true).countP
        (fun a => is_fully_migrated (lookupData store a.id)) ∧
    st.commits = (if (env.package_activity_list name true).length -
      (env.package_activity_list name true).countP
        (fun a => is_fully_migrated (lookupData store a.id)) > 0
      then 1 else 0) := by
  obtain ⟨st0, hpa, _, hmut, _, hcommits⟩ := migrate_dataset_ok env store name st h
  have hcount := processAll_mutations env _ _ 0 _ st0 hpa hnd
  have hm : st0.mutations = (env.package_activity_list name true).countP
      (fun a => !is_fully_migrated (lookupData store a.id)) := by
    simpa using hcount
  have hsum := countP_not_add_countP (env.package_activity_list name true)
    (fun a => is_fully_migrated (lookupData store a.id))
  have hnk : st0.mutations = (env.package_activity_list name true).length -
      (env.package_activity_list name true).countP
        (fun a => is_fully_migrated (lookupData store a.id)) := by omega
  constructor
  · rw [hmut, hnk]
  · rw [hcommits, hnk]

theorem C4_commit_batching_witness :
    (migrate_dataset exEnv4 exStore4 "d").toOption.map RunState.mutations =
      some 3 ∧
    (migrate_dataset exEnv4 exStore4 "d").toOption.map RunState.commits =
      some 1 := by
  obtain ⟨st, hst⟩ : ∃ st, migrate_dataset exEnv4 exStore4 "d" = .ok st := ⟨_, rfl⟩
  obtain ⟨hm, hc⟩ := C4_commit_batching exEnv4 exStore4 "d" st hst (by decide)
  constructor
  · rw [hst]
    show some st.mutations = some 3
    rw [hm]
    rfl
  · rw [hst]
    show some st.commits = some 1
    rw [hc]
    rfl

/-- C5: the per-dataset migration lists the change events with hidden
inclusion enabled, and every event of that list — hidden or not — is fully
migrated after a successful run; an event that was not already fully
migrated carries exactly the payload computed by reconstructing the
dataset as of the revision marker of that same event (event ids
distinct). -/
theorem C5_hidden_inclusion (env : Env) (store : Store) (name : String)
    (st : RunState) (a : Activity) (v : DatasetView)
    (h : migrate_dataset env store name = .ok st)
    (hnd : ((env.package_activity_list name true).map Activity.id).Nodup)
    (ha : a ∈ env.package_activity_list name true)
    (hv : env.package_show a.object_id a.revision_id false = some v) :
    is_fully_migrated (lookupData st.store a.id) = true ∧
    (is_fully_migrated (lookupData store a.id) = false →
      lookupData st.store a.id = migratedData env a v) := by
  obtain ⟨st0, hpa, hstore, _⟩ := migrate_dataset_ok env store name st h
  obtain ⟨h1, h2⟩ := processAll_spec env _ _ 0 _ st0 hpa hnd a ha
  rw [hstore]
  exact ⟨h1, fun hg => h2 v hv hg⟩

theorem C5_hidden_inclusion_witness :
    is_fully_migrated
        (lookupData ((migrate_dataset exEnv [] "d").toOption.getD exInit).store
          "a1") = true ∧
    lookupData ((migrate_dataset exEnv [] "d").toOption.getD exInit).store "a1" =
      migratedData exEnv (mkAct "a1" "r1" "u1" true) exView := by
  obtain ⟨st, hst⟩ : ∃ st, migrate_dataset exEnv [] "d" = .ok st := ⟨_, rfl⟩
  have h := C5_hidden_inclusion exEnv [] "d" st (mkAct "a1" "r1" "u1" true) exView
    hst (by decide) (by decide) rfl
  rw [hst]
  exact ⟨h.1, h.2 rfl⟩

/-- C7: a dataset with zero change events makes zero reconstruction
calls, issues zero commits, does not fail, and emits the no-activities
notice followed only by the summary line. -/
theorem C7_empty_dataset (env : Env) (store : Store) (name : String)
    (h : env.package_activity_list name true = []) :
    migrate_dataset env store name =
      .ok { store := store, mutations := 0, reconstructions := 0, commits := 0,
            log := [LogLine.noActivities, LogLine.summary 0] } := by
  simp only [migrate_dataset, h]
  rfl

theorem C7_empty_dataset_witness :
    migrate_dataset exEnv7 [] "empty" =
      .ok { store := [], mutations := 0, reconstructions := 0, commits := 0,
            log := [LogLine.noActivities, LogLine.summary 0] } :=
  C7_empty_dataset exEnv7 [] "empty" rfl

/-- C9: reconstruction happens before the Attachment Guard is consulted:
a successful per-dataset run performs exactly one reconstruction call per
listed event (so an already migrated event is reconstructed again on every
run), and a NotFound reconstruction failure on any listed event — migrated
or not — makes the whole per-dataset call fail. -/
theorem C9_reconstruct_before_guard (env : Env) (store : Store) (name : String) :
    (∀ st : RunState, migrate_dataset env store name = .ok st →
        st.reconstructions = (env.package_activity_list name true).length) ∧
    (∀ a ∈ env.package_activity_list name true,
        env.package_show a.object_id a.revision_id false = none →
        runOk (migrate_dataset env store name) = false) := by
  constructor
  · intro st h
    obtain ⟨st0, hpa, _, _, hrec, _⟩ := migrate_dataset_ok env store name st h
    have h2 := processAll_reconstructions env _ _ 0 _ st0 hpa
    rw [hrec, h2]
    simp
  · intro a ha hnone
    cases hres : migrate_dataset env store name with
    | error e => rfl
    | ok st =>
        obtain ⟨_, hsome⟩ := migrate_dataset_post env store name st hres a ha
        rw [hnone] at hsome
        exact absurd hsome (by simp)

theorem C9_reconstruct_before_guard_witness :
    runOk (migrate_dataset exEnv9 [("a1", exMigratedData)] "d") = false :=
  (C9_reconstruct_before_guard exEnv9 [("a1", exMigratedData)] "d").2
    (mkAct "a1" "rgone" "u1" false) (by decide) rfl

/-- C10: normalization is total on datasets without an owning
organization: the organization-level removal leaves the organization
absent and the per-event migration step still succeeds. -/
theorem C10_no_organization (v : DatasetView) (h : v.organization = none)
    (env : Env) (st : RunState) (n i : Nat) (a : Activity)
    (hps : env.package_show a.object_id a.revision_id false = some v) :
    (normalize_dataset v).organization = none ∧
    runOk (processActivity env st n i a) = true := by
  constructor
  · simp [normalize_dataset, h]
  · by_cases hg : is_fully_migrated (lookupData st.store a.id) = true
    · rw [processActivity_skip env st n i a v hps hg]
      rfl
    · rw [Bool.not_eq_true] at hg
      rw [processActivity_write env st n i a v hps hg]
      rfl

theorem C10_no_organization_witness :
    (normalize_dataset exViewNoOrg).organization = none ∧
    runOk (processActivity exEnv10 exInit 1 0 (mkAct "a1" "r1" "u1" false)) =
      true :=
  C10_no_organization exViewNoOrg rfl exEnv10 exInit 1 0
    (mkAct "a1" "r1" "u1" false) rfl

end CkanMigration

namespace CkanMigration

theorem stripped_resources_all_isNone (l : List Resource) :
    ((l.map fun res =>
        if res.revision_timestamp.isSome then
          { res with revision_timestamp := none }
        else res).all fun r => r.revision_timestamp.isNone) = true := by
  induction l with
  | nil => rfl
  | cons r rest ih =>
      cases hrt : r.revision_timestamp with
      | none => simp [hrt, ih]
      | some ts => simp [hrt, ih]

/-- C3 (amended): normalization removes the revision timestamp from the
organization sub-dictionary (when one is present) and from every
resource, but it leaves the tags and the extras untouched, so a revision
timestamp carried by a tag or an extra survives into the attached
snapshot. -/
theorem C3_normalization (v : DatasetView) :
    ((normalize_dataset v).organization.all fun o =>
        o.revision_timestamp.isNone) = true ∧
    ((normalize_dataset v).resources.all fun r =>
        r.revision_timestamp.isNone) = true ∧
    (normalize_dataset v).tags = v.tags ∧
    (normalize_dataset v).extras = v.extras := by
  obtain ⟨title, org, resources, tags, extras⟩ := v
  have hres := stripped_resources_all_isNone resources
  cases org with
  | none =>
      refine ⟨rfl, ?_, rfl, rfl⟩
      simpa [normalize_dataset] using hres
  | some o =>
      cases hrt : o.revision_timestamp with
      | none =>
          refine ⟨?_, ?_, ?_, ?_⟩
          · simp [normalize_dataset, hrt, Option.all]
          · simpa [normalize_dataset, hrt] using hres
          · simp [normalize_dataset, hrt]
          · simp [normalize_dataset, hrt]
      | some ts =>
          refine ⟨?_, ?_, ?_, ?_⟩
          · simp [normalize_dataset, hrt, Option.all]
          · simpa [normalize_dataset, hrt] using hres
          · simp [normalize_dataset, hrt]
          · simp [normalize_dataset, hrt]

/-- C3 counterexample: a reconstructed view whose tag and whose extra
carry a revision timestamp keeps both after normalization, so the
normalized snapshot is not free of tag-level or extra-level revision
timestamps as the claim states. -/
theorem C3_counterexample :
    ((normalize_dataset exView).tags.all fun t =>
        t.revision_timestamp.isNone) = false ∧
    ((normalize_dataset exView).extras.all fun e =>
        e.revision_timestamp.isNone) = false := by
  exact ⟨rfl, rfl⟩

/-- C1 (amended): the Attachment Guard judges an event fully migrated iff
the stored payload has a package sub-structure with a `resources` key at
all, regardless of whether that collection is empty; when the resources
key is present — even over an empty collection — the event is skipped
without mutation, and only when the key is absent is the payload
rewritten. -/
theorem C1_guard (env : Env) (st : RunState) (n i : Nat) (a : Activity)
    (v : DatasetView)
    (hps : env.package_show a.object_id a.revision_id false = some v) :
    (is_fully_migrated (lookupData st.store a.id) = true ↔
      ∃ p rs, (lookupData st.store a.id).package = some p ∧
        p.resources = some rs) ∧
    ((∃ p rs, (lookupData st.store a.id).package = some p ∧
        p.resources = some rs) →
      processActivity env st n i a =
        .ok { st with
                reconstructions := st.reconstructions + 1,
                log := st.log ++
                  [LogLine.activityProgress (i + 1) n a.timestamp,
                   LogLine.alreadyRecorded] }) ∧
    ((¬ ∃ p rs, (lookupData st.store a.id).package = some p ∧
        p.resources = some rs) →
      processActivity env st n i a =
        .ok { st with
                store := setData st.store a.id (migratedData env a v),
                mutations := st.mutations + 1,
                reconstructions := st.reconstructions + 1,
                log := st.log ++
                  [LogLine.activityProgress (i + 1) n a.timestamp] }) := by
  have hiff : is_fully_migrated (lookupData st.store a.id) = true ↔
      ∃ p rs, (lookupData st.store a.id).package = some p ∧
        p.resources = some rs := by
    unfold is_fully_migrated
    cases hpk : (lookupData st.store a.id).package with
    | none => simp
    | some p =>
        cases hrs : p.resources with
        | none => simp [hrs]
        | some rs => simp [hrs]
  refine ⟨hiff, ?_, ?_⟩
  · intro hex
    exact processActivity_skip env st n i a v hps (hiff.mpr hex)
  · intro hnex
    have hg : is_fully_migrated (lookupData st.store a.id) = false := by
      cases hb : is_fully_migrated (lookupData st.store a.id)
      · rfl
      · exact absurd (hiff.mp hb) hnex
    exact processActivity_write env st n i a v hps hg

/-- C1 counterexample: an event whose stored payload carries a `resources`
key holding an empty collection.  The guard judges it fully migrated — the
claim says the guard must return false there — and a migration run over it
leaves the payload unchanged with zero mutations instead of rewriting
it. -/
theorem C1_counterexample :
    is_fully_migrated exDataEmptyRes = true ∧
    (migrate_dataset exEnvC1 [("a1", exDataEmptyRes)] "d").toOption.map
        (fun st => (lookupData st.store "a1", st.mutations)) =
      some (exDataEmptyRes, 0) := by
  exact ⟨rfl, rfl⟩

/-- C6: the attached payload carries the resolved actor: the found user
name when the lookup succeeds, the raw actor id string when no user row
exists, and a missing actor never makes the per-event step fail. -/
theorem C6_actor_fallback (env : Env) (st : RunState) (n i : Nat)
    (a : Activity) (v : DatasetView) (u : User)
    (hps : env.package_show a.object_id a.revision_id false = some v) :
    runOk (processActivity env st n i a) = true ∧
    (env.user_lookup a.user_id = some u →
      (migratedData env a v).actor = some u.name) ∧
    (env.user_lookup a.user_id = none →
      (migratedData env a v).actor = some a.user_id) ∧
    (is_fully_migrated (lookupData st.store a.id) = false →
      processActivity env st n i a =
        .ok { st with
                store := setData st.store a.id (migratedData env a v),
                mutations := st.mutations + 1,
                reconstructions := st.reconstructions + 1,
                log := st.log ++
                  [LogLine.activityProgress (i + 1) n a.timestamp] }) := by
  refine ⟨?_, ?_, ?_, ?_⟩
  · by_cases hg : is_fully_migrated (lookupData st.store a.id) = true
    · rw [processActivity_skip env st n i a v hps hg]; rfl
    · rw [Bool.not_eq_true] at hg
      rw [processActivity_write env st n i a v hps hg]; rfl
  · intro hu
    simp [migratedData, resolve_actor, hu]
  · intro hu
    simp [migratedData, resolve_actor, hu]
  · intro hg
    exact processActivity_write env st n i a v hps hg

theorem C6_actor_fallback_witness :
    runOk (processActivity exEnv exInit 2 1
        (mkAct "a2" "r2" "U-missing" false)) = true ∧
    (migratedData exEnv (mkAct "a2" "r2" "U-missing" false) exView).actor =
      some "U-missing" := by
  have h := C6_actor_fallback exEnv exInit 2 1
    (mkAct "a2" "r2" "U-missing" false) exView { name := "alice" } rfl
  exact ⟨h.1, h.2.2.1 rfl⟩

/-- C8: the legacy cleanup reports already-clean without prompting or
deleting when the row count is zero; otherwise it prompts, treats the
response as affirmative exactly when its lowercased first character is
`y`, exits the process with status zero deleting nothing on a
non-affirmative response, deletes every row and commits exactly once on
an affirmative one, and its decision depends on the response only through
the lowercased first character. -/
theorem C8_cleanup (rowCount : Nat) (response : String) :
    (rowCount = 0 →
      wipe_activity_detail rowCount response =
        { outcome := .alreadyClean, rowsAfter := rowCount, commits := 0,
          prompted := false }) ∧
    (rowCount ≠ 0 → (wipe_activity_detail rowCount response).prompted = true) ∧
    (rowCount ≠ 0 → (response.data.map Char.toLower).take 1 ≠ [Char.ofNat 121] →
      wipe_activity_detail rowCount response =
        { outcome := .exitZero, rowsAfter := rowCount, commits := 0,
          prompted := true }) ∧
    (rowCount ≠ 0 → (response.data.map Char.toLower).take 1 = [Char.ofNat 121] →
      wipe_activity_detail rowCount response =
        { outcome := .deleted, rowsAfter := 0, commits := 1,
          prompted := true }) ∧
    (∀ r2 : String,
      (r2.data.map Char.toLower).take 1 = (response.data.map Char.toLower).take 1 →
      wipe_activity_detail rowCount r2 = wipe_activity_detail rowCount response) := by
  refine ⟨?_, ?_, ?_, ?_, ?_⟩
  · intro h0
    simp [wipe_activity_detail, h0]
  · intro h0
    unfold wipe_activity_detail
    rw [if_neg h0]
    by_cases hy : (response.data.map Char.toLower).take 1 ≠ [Char.ofNat 121]
    · rw [if_pos hy]
    · rw [if_neg hy]
  · intro h0 hy
    simp [wipe_activity_detail, h0, hy]
  · intro h0 hy
    simp [wipe_activity_detail, h0, hy]
  · intro r2 hr2
    simp only [wipe_activity_detail, hr2]

theorem C8_cleanup_witness :
    wipe_activity_detail 3 "Yes" =
      { outcome := .deleted, rowsAfter := 0, commits := 1, prompted := true } ∧
    wipe_activity_detail 3 "nope" =
      { outcome := .exitZero, rowsAfter := 3, commits := 0, prompted := true } ∧
    wipe_activity_detail 0 "whatever" =
      { outcome := .alreadyClean, rowsAfter := 0, commits := 0,
        prompted := false } :=
  ⟨(C8_cleanup 3 "Yes").2.2.2.1 (by decide) (by decide),
   (C8_cleanup 3 "nope").2.2.1 (by decide) (by decide),
   (C8_cleanup 0 "whatever").1 rfl⟩

end CkanMigration

namespace CkanMigration

theorem C1_guard_witness :
    is_fully_migrated (lookupData [("a1", exDataEmptyRes)] "a1") = true ∧
    processActivity exEnvC1
        { store := [("a1", exDataEmptyRes)], mutations := 0,
          reconstructions := 0, commits := 0, log := [] } 1 0
        (mkAct "a1" "r1" "u1" false) =
      .ok { store := [("a1", exDataEmptyRes)], mutations := 0,
            reconstructions := 1, commits := 0,
            log := [LogLine.activityProgress 1 1 "2018-04-20",
                    LogLine.alreadyRecorded] } := by
  have h := C1_guard exEnvC1
    { store := [("a1", exDataEmptyRes)], mutations := 0,
      reconstructions := 0, commits := 0, log := [] } 1 0
    (mkAct "a1" "r1" "u1" false) exView rfl
  exact ⟨(h.1).mpr ⟨_, _, rfl, rfl⟩, h.2.1 ⟨_, _, rfl, rfl⟩⟩

end CkanMigration
